import Mathlib

/-!
Shallow embedding of turbopack/crates/turbo-tasks/src/vc/resolved.rs:
the ResolvedVc wrapper around Vc, its cast protocol, and the
ResolvedValue marker predicate with its compositional rules.
-/

namespace TurboTasks

/-- Leaf types granted ResolvedValue axiomatically by the impl_resolved!
invocations (resolved.rs lines 270-285). -/
inductive PrimTy where
  | i8 | u8 | i16 | u16 | i32 | u32 | i64 | u64 | f32 | f64 | char | bool | usize
  | atomicI8 | atomicU8 | atomicI16 | atomicU16 | atomicI32 | atomicU32
  | atomicI64 | atomicU64 | atomicBool | atomicUsize
  | unit | str | string | duration | anyhowError | rcStr
  | path | pathBuf | serdeJsonValue
deriving DecidableEq

/-- Syntactic grammar of the Rust types over which the ResolvedValue
predicate is judged: primitives, the two handle types, and every container
that resolved.rs gives a closure rule for (lines 288-326).  valueStruct
stands for a user-defined value type given by the list of its field types. -/
inductive RTy where
  | prim (p : PrimTy)
  | vc (t : RTy)
  | resolvedVc (t : RTy)
  | option (t : RTy)
  | vec (t : RTy)
  | array (t : RTy) (n : Nat)
  | slice (t : RTy)
  | hashSet (t : RTy)
  | autoSet (t : RTy)
  | btreeSet (t : RTy)
  | indexSet (t : RTy)
  | hashMap (k : RTy) (v : RTy)
  | autoMap (k : RTy) (v : RTy)
  | btreeMap (k : RTy) (v : RTy)
  | indexMap (k : RTy) (v : RTy)
  | boxed (t : RTy)
  | arc (t : RTy)
  | result (t : RTy) (e : RTy)
  | mutex (t : RTy)
  | refCell (t : RTy)
  | phantomData (t : RTy)
  | ref (t : RTy)
  | mutRef (t : RTy)
  | tuple (ts : List RTy)
  | valueStruct (fields : List RTy)

/-- Closed-world reading of the trait ResolvedValue of resolved.rs (lines
255-326): one rule per unsafe impl of the file, and no rule at all for the
plain handle type Vc.  Tuples follow impl_resolved_tuple (line 301), which
covers exactly the arities 1 through 12.  The valueStruct rule is the one
rule not from this file: it is modelled from the spec, whose design notes
say the derive for a user value type composes the bounds of its field
types. -/
inductive ResolvedValue : RTy → Prop where
  | prim (p : PrimTy) : ResolvedValue (.prim p)
  | resolvedVc {t : RTy} : ResolvedValue t → ResolvedValue (.resolvedVc t)
  | option {t : RTy} : ResolvedValue t → ResolvedValue (.option t)
  | vec {t : RTy} : ResolvedValue t → ResolvedValue (.vec t)
  | array {t : RTy} (n : Nat) : ResolvedValue t → ResolvedValue (.array t n)
  | slice {t : RTy} : ResolvedValue t → ResolvedValue (.slice t)
  | hashSet {t : RTy} : ResolvedValue t → ResolvedValue (.hashSet t)
  | autoSet {t : RTy} : ResolvedValue t → ResolvedValue (.autoSet t)
  | btreeSet {t : RTy} : ResolvedValue t → ResolvedValue (.btreeSet t)
  | indexSet {t : RTy} : ResolvedValue t → ResolvedValue (.indexSet t)
  | hashMap {k v : RTy} :
      ResolvedValue k → ResolvedValue v → ResolvedValue (.hashMap k v)
  | autoMap {k v : RTy} :
      ResolvedValue k → ResolvedValue v → ResolvedValue (.autoMap k v)
  | btreeMap {k v : RTy} :
      ResolvedValue k → ResolvedValue v → ResolvedValue (.btreeMap k v)
  | indexMap {k v : RTy} :
      ResolvedValue k → ResolvedValue v → ResolvedValue (.indexMap k v)
  | boxed {t : RTy} : ResolvedValue t → ResolvedValue (.boxed t)
  | arc {t : RTy} : ResolvedValue t → ResolvedValue (.arc t)
  | result {t e : RTy} :
      ResolvedValue t → ResolvedValue e → ResolvedValue (.result t e)
  | mutex {t : RTy} : ResolvedValue t → ResolvedValue (.mutex t)
  | refCell {t : RTy} : ResolvedValue t → ResolvedValue (.refCell t)
  | phantomData (t : RTy) : ResolvedValue (.phantomData t)
  | ref {t : RTy} : ResolvedValue t → ResolvedValue (.ref t)
  | mutRef {t : RTy} : ResolvedValue t → ResolvedValue (.mutRef t)
  | tuple {ts : List RTy} : 1 ≤ ts.length → ts.length ≤ 12 →
      (∀ t ∈ ts, ResolvedValue t) → ResolvedValue (.tuple ts)
  | valueStruct {fields : List RTy} :
      (∀ t ∈ fields, ResolvedValue t) → ResolvedValue (.valueStruct fields)

mutual

/-- A type is free of plain (unresolved) handles when no Vc occurs in its
structure outside of a PhantomData parameter (PhantomData holds no data). -/
def plainVcFree : RTy → Bool
  | .prim _ => true
  | .vc _ => false
  | .resolvedVc t => plainVcFree t
  | .option t => plainVcFree t
  | .vec t => plainVcFree t
  | .array t _ => plainVcFree t
  | .slice t => plainVcFree t
  | .hashSet t => plainVcFree t
  | .autoSet t => plainVcFree t
  | .btreeSet t => plainVcFree t
  | .indexSet t => plainVcFree t
  | .hashMap k v => plainVcFree k && plainVcFree v
  | .autoMap k v => plainVcFree k && plainVcFree v
  | .btreeMap k v => plainVcFree k && plainVcFree v
  | .indexMap k v => plainVcFree k && plainVcFree v
  | .boxed t => plainVcFree t
  | .arc t => plainVcFree t
  | .result t e => plainVcFree t && plainVcFree e
  | .mutex t => plainVcFree t
  | .refCell t => plainVcFree t
  | .phantomData _ => true
  | .ref t => plainVcFree t
  | .mutRef t => plainVcFree t
  | .tuple ts => plainVcFreeList ts
  | .valueStruct fields => plainVcFreeList fields

/-- Conjunction of plainVcFree over a list of component types. -/
def plainVcFreeList : List RTy → Bool
  | [] => true
  | t :: ts => plainVcFree t && plainVcFreeList ts

end

theorem plainVcFreeList_of_forall {ts : List RTy}
    (h : ∀ t ∈ ts, plainVcFree t = true) : plainVcFreeList ts = true := by
  induction ts with
  | nil => rfl
  | cons t ts ih =>
      simp only [plainVcFreeList, Bool.and_eq_true]
      exact ⟨h t (List.mem_cons_self t ts), ih fun u hu => h u (List.mem_cons_of_mem t hu)⟩

/-- Every type satisfying the ResolvedValue predicate is free of plain
(unresolved) handles. -/
theorem ResolvedValue.to_plainVcFree {t : RTy} (h : ResolvedValue t) :
    plainVcFree t = true := by
  induction h with
  | prim p => rfl
  | resolvedVc _ ih => simpa [plainVcFree] using ih
  | option _ ih => simpa [plainVcFree] using ih
  | vec _ ih => simpa [plainVcFree] using ih
  | array n _ ih => simpa [plainVcFree] using ih
  | slice _ ih => simpa [plainVcFree] using ih
  | hashSet _ ih => simpa [plainVcFree] using ih
  | autoSet _ ih => simpa [plainVcFree] using ih
  | btreeSet _ ih => simpa [plainVcFree] using ih
  | indexSet _ ih => simpa [plainVcFree] using ih
  | hashMap _ _ ihk ihv => simp [plainVcFree, ihk, ihv]
  | autoMap _ _ ihk ihv => simp [plainVcFree, ihk, ihv]
  | btreeMap _ _ ihk ihv => simp [plainVcFree, ihk, ihv]
  | indexMap _ _ ihk ihv => simp [plainVcFree, ihk, ihv]
  | boxed _ ih => simpa [plainVcFree] using ih
  | arc _ ih => simpa [plainVcFree] using ih
  | result _ _ iht ihe => simp [plainVcFree, iht, ihe]
  | mutex _ ih => simpa [plainVcFree] using ih
  | refCell _ ih => simpa [plainVcFree] using ih
  | phantomData t => rfl
  | ref _ ih => simpa [plainVcFree] using ih
  | mutRef _ ih => simpa [plainVcFree] using ih
  | tuple h1 h12 _ ih => exact plainVcFreeList_of_forall ih
  | valueStruct _ ih => exact plainVcFreeList_of_forall ih

/-- One-hole contexts built from the containers that resolved.rs gives
closure rules for: Option, Vec, arrays, slices, the four set types, the
four map types (hole in key or in value position), Box, Arc, Mutex,
RefCell, shared and mutable references, Result (hole in the ok or in the
err position) and tuples (hole at an arbitrary position, arbitrary other
components). -/
inductive Ctx where
  | hole
  | option (c : Ctx)
  | vec (c : Ctx)
  | array (c : Ctx) (n : Nat)
  | slice (c : Ctx)
  | hashSet (c : Ctx)
  | autoSet (c : Ctx)
  | btreeSet (c : Ctx)
  | indexSet (c : Ctx)
  | hashMapKey (c : Ctx) (v : RTy)
  | hashMapVal (k : RTy) (c : Ctx)
  | autoMapKey (c : Ctx) (v : RTy)
  | autoMapVal (k : RTy) (c : Ctx)
  | btreeMapKey (c : Ctx) (v : RTy)
  | btreeMapVal (k : RTy) (c : Ctx)
  | indexMapKey (c : Ctx) (v : RTy)
  | indexMapVal (k : RTy) (c : Ctx)
  | boxed (c : Ctx)
  | arc (c : Ctx)
  | resultOk (c : Ctx) (e : RTy)
  | resultErr (t : RTy) (c : Ctx)
  | mutex (c : Ctx)
  | refCell (c : Ctx)
  | ref (c : Ctx)
  | mutRef (c : Ctx)
  | tupleAt (pre : List RTy) (c : Ctx) (post : List RTy)

/-- Plugging a type into the hole of a container context. -/
def Ctx.plug : Ctx → RTy → RTy
  | .hole, x => x
  | .option c, x => .option (c.plug x)
  | .vec c, x => .vec (c.plug x)
  | .array c n, x => .array (c.plug x) n
  | .slice c, x => .slice (c.plug x)
  | .hashSet c, x => .hashSet (c.plug x)
  | .autoSet c, x => .autoSet (c.plug x)
  | .btreeSet c, x => .btreeSet (c.plug x)
  | .indexSet c, x => .indexSet (c.plug x)
  | .hashMapKey c v, x => .hashMap (c.plug x) v
  | .hashMapVal k c, x => .hashMap k (c.plug x)
  | .autoMapKey c v, x => .autoMap (c.plug x) v
  | .autoMapVal k c, x => .autoMap k (c.plug x)
  | .btreeMapKey c v, x => .btreeMap (c.plug x) v
  | .btreeMapVal k c, x => .btreeMap k (c.plug x)
  | .indexMapKey c v, x => .indexMap (c.plug x) v
  | .indexMapVal k c, x => .indexMap k (c.plug x)
  | .boxed c, x => .boxed (c.plug x)
  | .arc c, x => .arc (c.plug x)
  | .resultOk c e, x => .result (c.plug x) e
  | .resultErr t c, x => .result t (c.plug x)
  | .mutex c, x => .mutex (c.plug x)
  | .refCell c, x => .refCell (c.plug x)
  | .ref c, x => .ref (c.plug x)
  | .mutRef c, x => .mutRef (c.plug x)
  | .tupleAt pre c post, x => .tuple (pre ++ c.plug x :: post)

theorem plainVcFreeList_append_cons (pre post : List RTy) {x : RTy}
    (hx : plainVcFree x = false) :
    plainVcFreeList (pre ++ x :: post) = false := by
  induction pre with
  | nil => simp [plainVcFreeList, hx]
  | cons p pre ih => simp [plainVcFreeList, ih]

/-- A container context plugged with a plain handle is never free of plain
handles. -/
theorem plainVcFree_plug_vc (C : Ctx) (t : RTy) :
    plainVcFree (C.plug (.vc t)) = false := by
  induction C with
  | hole => rfl
  | option c ih => simpa [Ctx.plug, plainVcFree] using ih
  | vec c ih => simpa [Ctx.plug, plainVcFree] using ih
  | array c n ih => simpa [Ctx.plug, plainVcFree] using ih
  | slice c ih => simpa [Ctx.plug, plainVcFree] using ih
  | hashSet c ih => simpa [Ctx.plug, plainVcFree] using ih
  | autoSet c ih => simpa [Ctx.plug, plainVcFree] using ih
  | btreeSet c ih => simpa [Ctx.plug, plainVcFree] using ih
  | indexSet c ih => simpa [Ctx.plug, plainVcFree] using ih
  | hashMapKey c v ih => simp [Ctx.plug, plainVcFree, ih]
  | hashMapVal k c ih => simp [Ctx.plug, plainVcFree, ih]
  | autoMapKey c v ih => simp [Ctx.plug, plainVcFree, ih]
  | autoMapVal k c ih => simp [Ctx.plug, plainVcFree, ih]
  | btreeMapKey c v ih => simp [Ctx.plug, plainVcFree, ih]
  | btreeMapVal k c ih => simp [Ctx.plug, plainVcFree, ih]
  | indexMapKey c v ih => simp [Ctx.plug, plainVcFree, ih]
  | indexMapVal k c ih => simp [Ctx.plug, plainVcFree, ih]
  | boxed c ih => simpa [Ctx.plug, plainVcFree] using ih
  | arc c ih => simpa [Ctx.plug, plainVcFree] using ih
  | resultOk c e ih => simp [Ctx.plug, plainVcFree, ih]
  | resultErr t c ih => simp [Ctx.plug, plainVcFree, ih]
  | mutex c ih => simpa [Ctx.plug, plainVcFree] using ih
  | refCell c ih => simpa [Ctx.plug, plainVcFree] using ih
  | ref c ih => simpa [Ctx.plug, plainVcFree] using ih
  | mutRef c ih => simpa [Ctx.plug, plainVcFree] using ih
  | tupleAt pre c post ih =>
      simpa [Ctx.plug, plainVcFree] using plainVcFreeList_append_cons pre post ih

/-- Identity of a result cell: a (producing task id, cell slot) pair.
Modelled from the spec: the spec's data model identifies a cell by this
stable pair, and the Debug impl of resolved.rs prints exactly this inner
node field. -/
structure RawVc where
  taskId : Nat
  slot : Nat
deriving DecidableEq

/-- Static type tag a handle is viewed at: a concrete value type or a
value-trait object, identified by ids of the runtime type registry. -/
inductive VcTy where
  | value (typeId : Nat)
  | traitObj (traitId : Nat)
deriving DecidableEq

/-- Modelled from the spec: the Value Handle Vc (external to this slice):
an opaque reference to a result cell, a (task id, slot) identity with a
phantom type tag; it may be unresolved. -/
structure Vc (ty : VcTy) where
  node : RawVc
deriving DecidableEq

/-- Modelled from the spec: the per-type registry of the design notes,
mapping concrete type ids to the value traits they satisfy, populated at
type-definition time and queried at cast time. -/
structure TypeRegistry where
  implements : Nat → Nat → Bool

/-- Static upcast relation of the data model: a concrete type statically
implements a trait, or every implementer of one trait implements a wider
one; a compile-time-known relation requiring no runtime information. -/
def UpcastRel (reg : TypeRegistry) : VcTy → VcTy → Prop
  | .value c, .traitObj k => reg.implements c k = true
  | .traitObj t, .traitObj k =>
      ∀ c, reg.implements c t = true → reg.implements c k = true
  | _, _ => False

/-- The error type of the resolution step: the producing task did not
yield a usable result, or the type registry could not resolve a tag. -/
inductive ResolveTypeError where
  | failure
deriving DecidableEq

/-- Modelled from the spec: the task-execution and storage collaborator:
resolving a handle awaits the producing task and yields the concrete type
tag stored in its cell, or reports a resolution failure (task failed,
panicked or cancelled, or an unknown type tag). -/
structure CellStore where
  resolve : RawVc → Except ResolveTypeError Nat

/-- Modelled from the spec: Vc upcast (external): pure metadata retagging,
the node is kept and only the phantom type tag changes. -/
def Vc.upcast {t : VcTy} (v : Vc t) (k : VcTy) : Vc k :=
  Vc.mk v.node

/-- Modelled from the spec: Vc try_resolve_sidecast (external): awaits the
resolution of the concrete type tag of the cell (a resolution failure
propagates as an error), then re-types the same node at trait k when the
registry says the stored concrete type implements k, else yields no
match. -/
def Vc.try_resolve_sidecast {t : Nat} (store : CellStore) (reg : TypeRegistry)
    (v : Vc (.traitObj t)) (k : Nat) :
    Except ResolveTypeError (Option (Vc (.traitObj k))) :=
  match store.resolve v.node with
  | .error e => .error e
  | .ok c => if reg.implements c k then .ok (some (Vc.mk v.node)) else .ok none

/-- Modelled from the spec: Vc try_resolve_downcast (external): as the
sidecast, under the narrower statically-consistent relation, so failure
only occurs on concrete-type mismatch. -/
def Vc.try_resolve_downcast {t : Nat} (store : CellStore) (reg : TypeRegistry)
    (v : Vc (.traitObj t)) (k : Nat) :
    Except ResolveTypeError (Option (Vc (.traitObj k))) :=
  match store.resolve v.node with
  | .error e => .error e
  | .ok c => if reg.implements c k then .ok (some (Vc.mk v.node)) else .ok none

/-- Modelled from the spec: Vc try_resolve_downcast_type (external):
resolves to a concrete-type handle when the runtime type tag of the cell
equals the requested one, else yields no match. -/
def Vc.try_resolve_downcast_type {t : Nat} (store : CellStore)
    (v : Vc (.traitObj t)) (k : Nat) :
    Except ResolveTypeError (Option (Vc (.value k))) :=
  match store.resolve v.node with
  | .error e => .error e
  | .ok c => if c = k then .ok (some (Vc.mk v.node)) else .ok none

/-- ResolvedVc (resolved.rs lines 33-41): a thin wrapper holding exactly
one wrapped Vc in its field node. -/
structure ResolvedVc (ty : VcTy) where
  node : Vc ty

/-- Deref impl of resolved.rs (lines 54-63): yields the wrapped node. -/
def ResolvedVc.deref {ty : VcTy} (self : ResolvedVc ty) : Vc ty :=
  self.node

/-- Modelled from the spec: equality of the Value Handle (external): two
handles are equal exactly when they name the same cell. -/
def Vc.eqOp {ty : VcTy} (a b : Vc ty) : Bool :=
  decide (a.node = b.node)

/-- PartialEq impl of resolved.rs (lines 65-72): self.node == other.node,
delegating to the equality of the wrapped Vc. -/
def ResolvedVc.eqOp {ty : VcTy} (self other : ResolvedVc ty) : Bool :=
  Vc.eqOp self.node other.node

/-- Hash impl of resolved.rs (lines 76-83): self.node.hash(state), the
wrapped handle hashed into an arbitrary hasher state. -/
def ResolvedVc.hashWith {ty : VcTy} {S : Type} (vcHash : Vc ty → S → S)
    (self : ResolvedVc ty) (state : S) : S :=
  vcHash self.node state

/-- TraceRawVcs impl of resolved.rs (lines 229-236): tracing a ResolvedVc
performs exactly the trace of the wrapped node on the trace context. -/
def ResolvedVc.trace_raw_vcs {ty : VcTy} {Cxt : Type}
    (vcTrace : Vc ty → Cxt → Cxt) (self : ResolvedVc ty)
    (trace_context : Cxt) : Cxt :=
  vcTrace self.node trace_context

/-- Debug impl of resolved.rs (lines 218-227): an opaque representation
built from the inner raw node (self.node.node) alone; the formatter has no
access to the referenced cell, so it can never read or await content. -/
def ResolvedVc.debugFmt {ty : VcTy} (rawDebug : RawVc → String)
    (self : ResolvedVc ty) : String :=
  "ResolvedVc \x7b node: " ++ rawDebug self.node.node ++ " \x7d"

/-- Serialization of ResolvedVc, modelled from the serde transparent
attribute on the struct (resolved.rs lines 33-34): it serializes exactly
as its single field node, for any serializer of the wrapped handle. -/
def ResolvedVc.serialize {ty : VcTy} {B : Type} (serVc : Vc ty → B)
    (self : ResolvedVc ty) : B :=
  serVc self.node

/-- Deserialization of ResolvedVc, modelled from the serde transparent
attribute (lines 33-34): any successfully deserialized Vc is wrapped
as-is, with no check that its producing task has completed. -/
def ResolvedVc.deserialize {ty : VcTy} {B : Type} (deVc : B → Option (Vc ty))
    (bytes : B) : Option (ResolvedVc ty) :=
  (deVc bytes).map fun node => ResolvedVc.mk node

/-- IntoFuture impl for ResolvedVc by value (resolved.rs lines 96-111):
(*self).into_future(), the future of the dereferenced wrapped handle. -/
def ResolvedVc.into_future {c : Nat} {F : Type} (vcIntoFuture : Vc (.value c) → F)
    (self : ResolvedVc (.value c)) : F :=
  vcIntoFuture self.deref

/-- IntoFuture impl for a shared reference to a ResolvedVc (line 112):
the same body, (*self).into_future(). -/
def ResolvedVc.into_future_ref {c : Nat} {F : Type} (vcIntoFuture : Vc (.value c) → F)
    (self : ResolvedVc (.value c)) : F :=
  vcIntoFuture self.deref

/-- IntoFuture impl for a mutable reference to a ResolvedVc (line 113):
the same body, (*self).into_future(). -/
def ResolvedVc.into_future_mut {c : Nat} {F : Type} (vcIntoFuture : Vc (.value c) → F)
    (self : ResolvedVc (.value c)) : F :=
  vcIntoFuture self.deref

/-- ResolvedVc upcast (resolved.rs lines 148-157): wraps the upcast of the
wrapped node; synchronous and total, with no error or suspension
channel. -/
def ResolvedVc.upcast {t : VcTy} (self : ResolvedVc t) (k : VcTy) : ResolvedVc k :=
  ResolvedVc.mk (Vc.upcast self.node k)

/-- ResolvedVc try_sidecast (resolved.rs lines 172-180): the sidecast of
the wrapped node, an error propagated by the question-mark operator and a
match re-wrapped as a ResolvedVc. -/
def ResolvedVc.try_sidecast {t : Nat} (store : CellStore) (reg : TypeRegistry)
    (self : ResolvedVc (.traitObj t)) (k : Nat) :
    Except ResolveTypeError (Option (ResolvedVc (.traitObj k))) := do
  let r ← Vc.try_resolve_sidecast store reg self.node k
  return r.map fun node => ResolvedVc.mk node

/-- ResolvedVc try_downcast (resolved.rs lines 188-195): the downcast of
the wrapped node, an error propagated and a match re-wrapped. -/
def ResolvedVc.try_downcast {t : Nat} (store : CellStore) (reg : TypeRegistry)
    (self : ResolvedVc (.traitObj t)) (k : Nat) :
    Except ResolveTypeError (Option (ResolvedVc (.traitObj k))) := do
  let r ← Vc.try_resolve_downcast store reg self.node k
  return r.map fun node => ResolvedVc.mk node

/-- ResolvedVc try_downcast_type (resolved.rs lines 202-209): the
concrete-type downcast of the wrapped node, an error propagated and a
match re-wrapped. -/
def ResolvedVc.try_downcast_type {t : Nat} (store : CellStore)
    (self : ResolvedVc (.traitObj t)) (k : Nat) :
    Except ResolveTypeError (Option (ResolvedVc (.value k))) := do
  let r ← Vc.try_resolve_downcast_type store self.node k
  return r.map fun node => ResolvedVc.mk node

/-- C1: the plain (unresolved) Value Handle type Vc never satisfies the
ResolvedValue predicate: no rule grants it for any inner type, and any
composite type embedding a plain Vc fails the predicate regardless of
which of the supported containers surround it. -/
theorem C1_plain_vc_never_resolved :
    (∀ t : RTy, ¬ ResolvedValue (.vc t)) ∧
    (∀ (C : Ctx) (t : RTy), ¬ ResolvedValue (C.plug (.vc t))) := by
  constructor
  · intro t h
    cases h
  · intro C t h
    have h1 : plainVcFree (C.plug (.vc t)) = true := h.to_plainVcFree
    have h2 : plainVcFree (C.plug (.vc t)) = false := plainVcFree_plug_vc C t
    simp [h1] at h2

/-- C2 counterexample: the impl granting ResolvedValue to ResolvedVc
(resolved.rs line 257) carries the bound that the inner type itself
satisfies ResolvedValue, so ResolvedVc of a value type holding a plain Vc
field is not granted the predicate, refuting the claim that ResolvedVc of
every value-trait-satisfying inner type satisfies it unconditionally. -/
theorem C2_cex_resolvedVc_conditional :
    ¬ ResolvedValue (.resolvedVc (.valueStruct [.vc (.prim .i32)])) := by
  intro h
  cases h with
  | resolvedVc hInner =>
      cases hInner with
      | valueStruct hf =>
          have hvc := hf (.vc (.prim .i32)) (by simp)
          cases hvc

/-- C2 amended: ResolvedVc of an inner type satisfies ResolvedValue
exactly when the inner type itself satisfies it — the impl on line 257 is
conditional on the bound over the inner type, not axiomatic. -/
theorem C2_resolvedVc_iff_inner :
    ∀ t : RTy, ResolvedValue (.resolvedVc t) ↔ ResolvedValue t := by
  intro t
  constructor
  · intro h
    cases h
    assumption
  · exact ResolvedValue.resolvedVc

/-- C6: the closure rules of ResolvedValue: Option, Vec, arrays, slices,
Result and tuples of arity 1 through 12 satisfy the predicate exactly when
every component does; the four set and four map types exactly when their
element, key and value types do; Box, Arc, Mutex, RefCell and the two
reference types exactly when the wrapped type does; and PhantomData
satisfies it unconditionally. -/
theorem C6_closure_rules :
    (∀ t : RTy, ResolvedValue (.option t) ↔ ResolvedValue t) ∧
    (∀ t : RTy, ResolvedValue (.vec t) ↔ ResolvedValue t) ∧
    (∀ (t : RTy) (n : Nat), ResolvedValue (.array t n) ↔ ResolvedValue t) ∧
    (∀ t : RTy, ResolvedValue (.slice t) ↔ ResolvedValue t) ∧
    (∀ t e : RTy,
        ResolvedValue (.result t e) ↔ ResolvedValue t ∧ ResolvedValue e) ∧
    (∀ ts : List RTy, 1 ≤ ts.length → ts.length ≤ 12 →
        (ResolvedValue (.tuple ts) ↔ ∀ t ∈ ts, ResolvedValue t)) ∧
    (∀ t : RTy, ResolvedValue (.hashSet t) ↔ ResolvedValue t) ∧
    (∀ t : RTy, ResolvedValue (.autoSet t) ↔ ResolvedValue t) ∧
    (∀ t : RTy, ResolvedValue (.btreeSet t) ↔ ResolvedValue t) ∧
    (∀ t : RTy, ResolvedValue (.indexSet t) ↔ ResolvedValue t) ∧
    (∀ k v : RTy,
        ResolvedValue (.hashMap k v) ↔ ResolvedValue k ∧ ResolvedValue v) ∧
    (∀ k v : RTy,
        ResolvedValue (.autoMap k v) ↔ ResolvedValue k ∧ ResolvedValue v) ∧
    (∀ k v : RTy,
        ResolvedValue (.btreeMap k v) ↔ ResolvedValue k ∧ ResolvedValue v) ∧
    (∀ k v : RTy,
        ResolvedValue (.indexMap k v) ↔ ResolvedValue k ∧ ResolvedValue v) ∧
    (∀ t : RTy, ResolvedValue (.boxed t) ↔ ResolvedValue t) ∧
    (∀ t : RTy, ResolvedValue (.arc t) ↔ ResolvedValue t) ∧
    (∀ t : RTy, ResolvedValue (.mutex t) ↔ ResolvedValue t) ∧
    (∀ t : RTy, ResolvedValue (.refCell t) ↔ ResolvedValue t) ∧
    (∀ t : RTy, ResolvedValue (.ref t) ↔ ResolvedValue t) ∧
    (∀ t : RTy, ResolvedValue (.mutRef t) ↔ ResolvedValue t) ∧
    (∀ t : RTy, ResolvedValue (.phantomData t)) := by
  refine ⟨?_, ?_, ?_, ?_, ?_, ?_, ?_, ?_, ?_, ?_, ?_, ?_, ?_, ?_, ?_, ?_,
    ?_, ?_, ?_, ?_, ?_⟩
  · exact fun t => ⟨fun h => by cases h; assumption, ResolvedValue.option⟩
  · exact fun t => ⟨fun h => by cases h; assumption, ResolvedValue.vec⟩
  · exact fun t n => ⟨fun h => by cases h; assumption, ResolvedValue.array n⟩
  · exact fun t => ⟨fun h => by cases h; assumption, ResolvedValue.slice⟩
  · intro t e
    constructor
    · intro h
      cases h with
      | result ht he => exact ⟨ht, he⟩
    · exact fun h => ResolvedValue.result h.1 h.2
  · intro ts h1 h12
    constructor
    · intro h
      cases h with
      | tuple _ _ hf => exact hf
    · exact fun hf => ResolvedValue.tuple h1 h12 hf
  · exact fun t => ⟨fun h => by cases h; assumption, ResolvedValue.hashSet⟩
  · exact fun t => ⟨fun h => by cases h; assumption, ResolvedValue.autoSet⟩
  · exact fun t => ⟨fun h => by cases h; assumption, ResolvedValue.btreeSet⟩
  · exact fun t => ⟨fun h => by cases h; assumption, ResolvedValue.indexSet⟩
  · intro k v
    constructor
    · intro h
      cases h with
      | hashMap hk hv => exact ⟨hk, hv⟩
    · exact fun h => ResolvedValue.hashMap h.1 h.2
  · intro k v
    constructor
    · intro h
      cases h with
      | autoMap hk hv => exact ⟨hk, hv⟩
    · exact fun h => ResolvedValue.autoMap h.1 h.2
  · intro k v
    constructor
    · intro h
      cases h with
      | btreeMap hk hv => exact ⟨hk, hv⟩
    · exact fun h => ResolvedValue.btreeMap h.1 h.2
  · intro k v
    constructor
    · intro h
      cases h with
      | indexMap hk hv => exact ⟨hk, hv⟩
    · exact fun h => ResolvedValue.indexMap h.1 h.2
  · exact fun t => ⟨fun h => by cases h; assumption, ResolvedValue.boxed⟩
  · exact fun t => ⟨fun h => by cases h; assumption, ResolvedValue.arc⟩
  · exact fun t => ⟨fun h => by cases h; assumption, ResolvedValue.mutex⟩
  · exact fun t => ⟨fun h => by cases h; assumption, ResolvedValue.refCell⟩
  · exact fun t => ⟨fun h => by cases h; assumption, ResolvedValue.ref⟩
  · exact fun t => ⟨fun h => by cases h; assumption, ResolvedValue.mutRef⟩
  · exact ResolvedValue.phantomData

/-- C3: for try_sidecast, try_downcast and try_downcast_type the two
failure channels are disjoint and never conflated: the call returns an
error exactly when the underlying resolution step reports a resolution
failure, and an absent result (ok none) exactly when resolution succeeded
but the stored concrete type does not satisfy the requested trait or
type. -/
theorem C3_failure_channels :
    (∀ (store : CellStore) (reg : TypeRegistry) (t k : Nat)
        (x : ResolvedVc (.traitObj t)) (e : ResolveTypeError),
        (ResolvedVc.try_sidecast store reg x k = .error e ↔
          store.resolve x.node.node = .error e) ∧
        (ResolvedVc.try_sidecast store reg x k = .ok none ↔
          ∃ c, store.resolve x.node.node = .ok c ∧
            reg.implements c k = false)) ∧
    (∀ (store : CellStore) (reg : TypeRegistry) (t k : Nat)
        (x : ResolvedVc (.traitObj t)) (e : ResolveTypeError),
        (ResolvedVc.try_downcast store reg x k = .error e ↔
          store.resolve x.node.node = .error e) ∧
        (ResolvedVc.try_downcast store reg x k = .ok none ↔
          ∃ c, store.resolve x.node.node = .ok c ∧
            reg.implements c k = false)) ∧
    (∀ (store : CellStore) (t k : Nat)
        (x : ResolvedVc (.traitObj t)) (e : ResolveTypeError),
        (ResolvedVc.try_downcast_type store x k = .error e ↔
          store.resolve x.node.node = .error e) ∧
        (ResolvedVc.try_downcast_type store x k = .ok none ↔
          ∃ c, store.resolve x.node.node = .ok c ∧ c ≠ k)) := by
  refine ⟨?_, ?_, ?_⟩
  · intro store reg t k x e
    constructor
    · rcases hres : store.resolve x.node.node with e2 | c
      · simp [ResolvedVc.try_sidecast, Vc.try_resolve_sidecast, hres,
          Bind.bind, Except.bind, Pure.pure, Except.pure]
      · cases himpl : reg.implements c k <;>
          simp [ResolvedVc.try_sidecast, Vc.try_resolve_sidecast, hres,
            himpl, Bind.bind, Except.bind, Pure.pure, Except.pure]
    · rcases hres : store.resolve x.node.node with e2 | c
      · simp [ResolvedVc.try_sidecast, Vc.try_resolve_sidecast, hres,
          Bind.bind, Except.bind, Pure.pure, Except.pure]
      · cases himpl : reg.implements c k <;>
          simp [ResolvedVc.try_sidecast, Vc.try_resolve_sidecast, hres,
            himpl, Bind.bind, Except.bind, Pure.pure, Except.pure]
  · intro store reg t k x e
    constructor
    · rcases hres : store.resolve x.node.node with e2 | c
      · simp [ResolvedVc.try_downcast, Vc.try_resolve_downcast, hres,
          Bind.bind, Except.bind, Pure.pure, Except.pure]
      · cases himpl : reg.implements c k <;>
          simp [ResolvedVc.try_downcast, Vc.try_resolve_downcast, hres,
            himpl, Bind.bind, Except.bind, Pure.pure, Except.pure]
    · rcases hres : store.resolve x.node.node with e2 | c
      · simp [ResolvedVc.try_downcast, Vc.try_resolve_downcast, hres,
          Bind.bind, Except.bind, Pure.pure, Except.pure]
      · cases himpl : reg.implements c k <;>
          simp [ResolvedVc.try_downcast, Vc.try_resolve_downcast, hres,
            himpl, Bind.bind, Except.bind, Pure.pure, Except.pure]
  · intro store t k x e
    constructor
    · rcases hres : store.resolve x.node.node with e2 | c
      · simp [ResolvedVc.try_downcast_type, Vc.try_resolve_downcast_type,
          hres, Bind.bind, Except.bind, Pure.pure, Except.pure]
      · by_cases hck : c = k <;>
          simp [ResolvedVc.try_downcast_type, Vc.try_resolve_downcast_type,
            hres, hck, Bind.bind, Except.bind, Pure.pure, Except.pure]
    · rcases hres : store.resolve x.node.node with e2 | c
      · simp [ResolvedVc.try_downcast_type, Vc.try_resolve_downcast_type,
          hres, Bind.bind, Except.bind, Pure.pure, Except.pure]
      · by_cases hck : c = k <;>
          simp [ResolvedVc.try_downcast_type, Vc.try_resolve_downcast_type,
            hres, hck, Bind.bind, Except.bind, Pure.pure, Except.pure]

/-- C4: equality, hashing and the raw-structure trace of a ResolvedVc
delegate unchanged to the wrapped Vc: two resolved handles are equal
exactly when their wrapped nodes are, hashing feeds exactly the wrapped
node to every hasher, and tracing performs exactly the trace of the
wrapped node. -/
theorem C4_identity_delegation :
    (∀ (ty : VcTy) (r1 r2 : ResolvedVc ty),
        ResolvedVc.eqOp r1 r2 = true ↔ r1.node = r2.node) ∧
    (∀ (ty : VcTy) (S : Type) (vcHash : Vc ty → S → S)
        (r : ResolvedVc ty) (s : S),
        ResolvedVc.hashWith vcHash r s = vcHash r.node s) ∧
    (∀ (ty : VcTy) (Cxt : Type) (vcTrace : Vc ty → Cxt → Cxt)
        (r : ResolvedVc ty) (c : Cxt),
        ResolvedVc.trace_raw_vcs vcTrace r c = vcTrace r.node c) := by
  refine ⟨?_, fun _ _ _ _ _ => rfl, fun _ _ _ _ _ => rfl⟩
  intro ty r1 r2
  rcases r1 with ⟨⟨n1⟩⟩
  rcases r2 with ⟨⟨n2⟩⟩
  simp [ResolvedVc.eqOp, Vc.eqOp]

/-- C5: with a statically proven upcast relation, upcast always succeeds
(it is a total synchronous function with no error channel) and changes
nothing but the static type tag: the result wraps the same raw cell
identity, and the underlying cell resolves exactly as before. -/
theorem C5_upcast_pure_retag (reg : TypeRegistry) (store : CellStore)
    (t k : VcTy) (h : UpcastRel reg t k) (x : ResolvedVc t) :
    (ResolvedVc.upcast x k).node.node = x.node.node ∧
    store.resolve (ResolvedVc.upcast x k).node.node =
      store.resolve x.node.node :=
  ⟨rfl, rfl⟩

/-- C5 witness: the upcast of a concrete handle at a concrete registry and
store, with the upcast relation discharged by computation. -/
theorem C5_upcast_pure_retag_witness :
    (ResolvedVc.upcast
        (ResolvedVc.mk (Vc.mk (RawVc.mk 1 2)) : ResolvedVc (.value 7))
        (.traitObj 3)).node.node =
      (ResolvedVc.mk (Vc.mk (RawVc.mk 1 2)) :
        ResolvedVc (.value 7)).node.node ∧
    (CellStore.mk fun _ => .ok 7).resolve
        (ResolvedVc.upcast
          (ResolvedVc.mk (Vc.mk (RawVc.mk 1 2)) : ResolvedVc (.value 7))
          (.traitObj 3)).node.node =
      (CellStore.mk fun _ => .ok 7).resolve
        (ResolvedVc.mk (Vc.mk (RawVc.mk 1 2)) :
          ResolvedVc (.value 7)).node.node :=
  C5_upcast_pure_retag (TypeRegistry.mk fun _ _ => true)
    (CellStore.mk fun _ => .ok 7) (.value 7) (.traitObj 3) rfl
    (ResolvedVc.mk (Vc.mk (RawVc.mk 1 2)))

/-- C7: upcast-then-downcast round-trips to an equal handle: when the cell
of x stores the concrete type c and c statically implements the trait k,
downcasting the upcast handle back to c returns a match equal to x. -/
theorem C7_upcast_downcast_roundtrip (store : CellStore)
    (reg : TypeRegistry) (c k : Nat) (x : ResolvedVc (.value c))
    (hup : UpcastRel reg (.value c) (.traitObj k))
    (hres : store.resolve x.node.node = .ok c) :
    ResolvedVc.try_downcast_type store
      (ResolvedVc.upcast x (.traitObj k)) c = .ok (some x) := by
  rcases x with ⟨⟨n⟩⟩
  simp only [ResolvedVc.try_downcast_type, Vc.try_resolve_downcast_type,
    ResolvedVc.upcast, Vc.upcast] at *
  rw [hres]
  simp [Bind.bind, Except.bind, Pure.pure, Except.pure]

/-- C7 witness: a concrete handle of concrete type 42 upcast to trait 7
and downcast back, with both hypotheses discharged by computation. -/
theorem C7_roundtrip_witness :
    ResolvedVc.try_downcast_type (CellStore.mk fun _ => .ok 42)
      (ResolvedVc.upcast
        (ResolvedVc.mk (Vc.mk (RawVc.mk 1 0)) : ResolvedVc (.value 42))
        (.traitObj 7)) 42 =
      .ok (some (ResolvedVc.mk (Vc.mk (RawVc.mk 1 0)))) :=
  C7_upcast_downcast_roundtrip (CellStore.mk fun _ => .ok 42)
    (TypeRegistry.mk fun _ _ => true) 42 7
    (ResolvedVc.mk (Vc.mk (RawVc.mk 1 0))) rfl rfl

/-- C8: the Debug formatting of a ResolvedVc is a function of the wrapped
raw node (task id and slot) alone: equal wrapped nodes give identical
output; the formatter takes no access to any cell store, so it never reads
or awaits the pointed-to content. -/
theorem C8_debug_identity_only (rawDebug : RawVc → String) (ty : VcTy)
    (r1 r2 : ResolvedVc ty) (h : r1.node.node = r2.node.node) :
    ResolvedVc.debugFmt rawDebug r1 = ResolvedVc.debugFmt rawDebug r2 := by
  simp [ResolvedVc.debugFmt, h]

/-- C8 witness: two concrete handles with the same raw node format
identically. -/
theorem C8_debug_witness :
    ResolvedVc.debugFmt (fun r => toString r.taskId)
        (ResolvedVc.mk (Vc.mk (RawVc.mk 3 4)) : ResolvedVc (.value 0)) =
      ResolvedVc.debugFmt (fun r => toString r.taskId)
        (ResolvedVc.mk (Vc.mk (RawVc.mk 3 4)) : ResolvedVc (.value 0)) :=
  C8_debug_identity_only (fun r => toString r.taskId) (.value 0)
    (ResolvedVc.mk (Vc.mk (RawVc.mk 3 4)))
    (ResolvedVc.mk (Vc.mk (RawVc.mk 3 4))) rfl

/-- C9: serialization of a ResolvedVc is transparent: it serializes
exactly as its wrapped Vc, deserialization wraps any deserialized Vc
without any completion check, and serialize followed by deserialize is the
identity whenever the underlying Vc codec round-trips. -/
theorem C9_serde_transparent :
    (∀ (ty : VcTy) (B : Type) (serVc : Vc ty → B) (r : ResolvedVc ty),
        ResolvedVc.serialize serVc r = serVc r.node) ∧
    (∀ (ty : VcTy) (B : Type) (deVc : B → Option (Vc ty)) (b : B),
        ResolvedVc.deserialize deVc b =
          (deVc b).map fun node => ResolvedVc.mk node) ∧
    (∀ (ty : VcTy) (B : Type) (serVc : Vc ty → B)
        (deVc : B → Option (Vc ty)),
        (∀ v, deVc (serVc v) = some v) →
        ∀ r : ResolvedVc ty,
          ResolvedVc.deserialize deVc (ResolvedVc.serialize serVc r) =
            some r) := by
  refine ⟨fun _ _ _ _ => rfl, fun _ _ _ _ => rfl, ?_⟩
  intro ty B serVc deVc hinv r
  rcases r with ⟨n⟩
  simp [ResolvedVc.serialize, ResolvedVc.deserialize, hinv]

/-- C10: awaiting a ResolvedVc by value, by shared reference or by mutable
reference is exactly awaiting the wrapped Vc: each IntoFuture impl returns
the future of the wrapped handle, so the read output is identical to
reading through the underlying handle. -/
theorem C10_into_future_delegates :
    (∀ (c : Nat) (F : Type) (vcIntoFuture : Vc (.value c) → F)
        (r : ResolvedVc (.value c)),
        ResolvedVc.into_future vcIntoFuture r = vcIntoFuture r.node) ∧
    (∀ (c : Nat) (F : Type) (vcIntoFuture : Vc (.value c) → F)
        (r : ResolvedVc (.value c)),
        ResolvedVc.into_future_ref vcIntoFuture r = vcIntoFuture r.node) ∧
    (∀ (c : Nat) (F : Type) (vcIntoFuture : Vc (.value c) → F)
        (r : ResolvedVc (.value c)),
        ResolvedVc.into_future_mut vcIntoFuture r = vcIntoFuture r.node) :=
  ⟨fun _ _ _ _ => rfl, fun _ _ _ _ => rfl, fun _ _ _ _ => rfl⟩

end TurboTasks
